import Mathlib

/-!
Verification of the rollinglog package (src/log.go) against its specification.

The repository contains two near-identical variants of a rolling log-file
writer.  Both share the writer type `rollingFile` with fields
`f : *os.File`, `lastErr : error`, and three channels `chFile`, `chErr`,
`chClosed`, a background scheduler goroutine started by `New`, and the
methods `Write` and `Close`.

Embedding choices:
- file handles are identifiers (`Nat`); Go `error` values are `GoErr`;
- the writer struct `rollingFile` becomes `RollingFile`;
- the one non-blocking `select` at the top of `Write` observes a
  `PollEvent`; which events are observable is governed by the channel /
  scheduler state (`pollValid`), reflecting Go rendezvous-channel
  semantics: a send on an unbuffered channel is visible to a receiver
  exactly while the sender is parked on it, a receive from a closed
  channel yields the zero value (nil file) immediately, and the
  `default` branch fires only when no other case is ready;
- the scheduler goroutine's interaction with the writer is a labelled
  transition system `stepE` over whole-system states `Sys`.  `close` of
  an already-closed channel panics, which `stepE` reports as
  `Outcome.panicked`.  After `Close` returns, `close(chClosed)` has
  already resolved every select the scheduler had parked (Go's
  closechan wins the select race before returning), so no file or
  error publication can be observed by later writes; `wClose` therefore
  atomically cancels any pending offer and marks `chFile` closed.
-/

/-- Go error values relevant to src/log.go: `io.EOF` (recorded by `Close`),
`os.ErrInvalid` (returned by a method call on a nil `*os.File`), and the
scheduler's directory-creation and file-open failures, tagged with an
arbitrary code to keep distinct OS errors distinct. -/
inductive GoErr where
  | eof
  | errInvalid
  | mkdirErr (code : Nat)
  | openErr (code : Nat)
deriving DecidableEq, Repr

/-- Errors the scheduler goroutine can report on `chErr`: a `MkdirAll`
failure that is not `IsExist`, or an `OpenFile` failure (src/log.go lines
92-107 and 262-277). -/
def isEpochErr : GoErr → Bool
  | .mkdirErr _ => true
  | .openErr _ => true
  | _ => false

/-- The writer struct `rollingFile` (src/log.go lines 151-157 and 306-312):
the held file handle `f` (`none` models a nil `*os.File`) and the sticky
error field `lastErr` (`none` models a nil error).  The three channels are
part of the surrounding system state, not of the struct value. -/
structure RollingFile where
  f : Option Nat
  lastErr : Option GoErr
deriving DecidableEq, Repr

/-- Outcome of the single non-blocking `select` at the top of
`rollingFile.Write`: an error received from `chErr`, a file received from
`chFile` (`none` when `chFile` is closed and the receive yields nil), or
the `default` branch. -/
inductive PollEvent where
  | gotErr (e : GoErr)
  | gotFile (fo : Option Nat)
  | nothing
deriving DecidableEq, Repr

/-- The body of `rollingFile.Write` (src/log.go lines 159-173, identical at
314-328).  `ev` is what the select observed; `fw` gives the underlying
`rf.f.Write(p)` result for the held file id.  Returns the Go return value
`(n, err)`, the updated struct, and the list of file ids on which
`Close()` was called during the body (the previously held file when a
replacement is adopted).  A nil `rf.f` yields `(0, os.ErrInvalid)` as in
Go, without a crash. -/
def RollingFile.write (rf : RollingFile) (ev : PollEvent)
    (fw : Nat → Nat × Option GoErr) :
    (Nat × Option GoErr) × RollingFile × List Nat :=
  let sel : RollingFile × List Nat :=
    match ev with
    | .gotErr e => (⟨rf.f, some e⟩, [])
    | .gotFile fo => (⟨fo, rf.lastErr⟩, rf.f.toList)
    | .nothing => (rf, [])
  let res : Nat × Option GoErr :=
    match sel.1.lastErr with
    | some e => (0, some e)
    | none =>
      match sel.1.f with
      | some fid => fw fid
      | none => (0, some GoErr.errInvalid)
  (res, sel.1, sel.2)

/-- Control state of the scheduler goroutine started by `New`
(src/log.go lines 79-134 and 251-296): looping (`running`), parked on
`chFile <- f` (`offerFile`), parked on `chErr <- err` (`offerErr`), or
returned (`done`; `defer close(chFile)` has then run). -/
inductive SchedState where
  | running
  | offerFile (f : Nat)
  | offerErr (e : GoErr)
  | done
deriving DecidableEq, Repr

/-- Whole-system state: the writer struct plus the channel and scheduler
state shared with the goroutine. -/
structure Sys where
  rf : RollingFile
  sched : SchedState
  chClosedClosed : Bool
  chFileClosed : Bool
deriving DecidableEq, Repr

/-- Which select outcomes are observable in a given system state, per Go
channel semantics: an error or file is receivable exactly while the
scheduler is parked sending it; a receive from the closed `chFile` yields
nil immediately; `default` fires only when no other case is ready. -/
def pollValid (s : Sys) (ev : PollEvent) : Bool :=
  match ev, s.sched with
  | .gotErr e, .offerErr e' => decide (e = e')
  | .gotFile (some f), .offerFile f' => decide (f = f')
  | .gotFile none, _ => s.chFileClosed
  | .nothing, .offerFile _ => false
  | .nothing, .offerErr _ => false
  | .nothing, _ => !s.chFileClosed
  | _, _ => false

/-- Events of the system: autonomous scheduler steps (an epoch's
`MkdirAll`/`OpenFile` succeeding and parking on the publish, an epoch
failing and parking on the error send, the pattern variant's midnight
timeout firing while the publish is still pending, src/log.go lines
124-132) and the writer's public calls `Write` and `Close`. -/
inductive Event where
  | sOpen (f : Nat)
  | sFail (e : GoErr)
  | sTimeout
  | wWrite (ev : PollEvent) (fw : Nat → Nat × Option GoErr)
  | wClose

/-- Result of one event: a new state (with the `Write` return value and
closed-file list when the event was a write), a Go panic (`close` of the
already-closed `chClosed` on a second `Close`), or an event that is not
enabled in this state. -/
inductive Outcome where
  | ok (s : Sys) (res : Option ((Nat × Option GoErr) × List Nat))
  | panicked
  | invalid
deriving DecidableEq, Repr

/-- Labelled transition function of the system.  Scheduler steps follow
src/log.go lines 79-134: only a looping scheduler can open or fail an
epoch; a pending publish abandoned by the timeout closes the file and
loops.  `wWrite` runs `RollingFile.write` on an observable poll; when the
poll delivers the error the goroutine returns and `defer close(chFile)`
runs; when it delivers a file the goroutine proceeds to wait for
midnight.  `wClose` follows lines 175-182: close the held file, set
`lastErr = io.EOF`, and `close(chClosed)` — which panics if `Close` was
already called, and otherwise resolves every parked select of the
scheduler so that no pending offer survives the call. -/
def stepE (s : Sys) (e : Event) : Outcome :=
  match e with
  | .sOpen f =>
    match s.sched with
    | .running => .ok { s with sched := .offerFile f } none
    | _ => .invalid
  | .sFail er =>
    match s.sched with
    | .running => if isEpochErr er then .ok { s with sched := .offerErr er } none else .invalid
    | _ => .invalid
  | .sTimeout =>
    match s.sched with
    | .offerFile _ => .ok { s with sched := .running } none
    | _ => .invalid
  | .wWrite pev fw =>
    if pollValid s pev then
      let out := RollingFile.write s.rf pev fw
      .ok { rf := out.2.1
            sched := match pev with
                     | .gotErr _ => .done
                     | .gotFile (some _) => .running
                     | _ => s.sched
            chClosedClosed := s.chClosedClosed
            chFileClosed := match pev with
                            | .gotErr _ => true
                            | _ => s.chFileClosed }
        (some (out.1, out.2.2))
    else .invalid
  | .wClose =>
    if s.chClosedClosed then .panicked
    else
      .ok { rf := { f := s.rf.f, lastErr := some GoErr.eof }
            sched := .done
            chClosedClosed := true
            chFileClosed := true } none

/-- Writer state immediately after a successful construction: the first
epoch's file is held, no sticky error, scheduler waiting for midnight,
no channel closed. -/
def initSys (f : Nat) : Sys :=
  ⟨⟨some f, none⟩, SchedState.running, false, false⟩

/-- Outcome of the scheduler's first epoch, the input the constructor
synchronously waits on. -/
inductive FirstEpoch where
  | published (f : Nat)
  | failed (e : GoErr)
deriving DecidableEq, Repr

/-- The pattern variant's constructor `New` (src/log.go lines 136-148):
`select` on `chFile` and `chErr`; a published file yields the writer, a
reported error is returned and no writer is built. -/
def New (fe : FirstEpoch) : Except GoErr Sys :=
  match fe with
  | .published f => Except.ok (initSys f)
  | .failed e => Except.error e

/-- Result of the fixed-layout variant's constructor, which has no error
return. -/
inductive New2Result where
  | writer (s : Sys)
  | hangs
deriving DecidableEq, Repr

/-- The fixed-layout variant's constructor `New` (src/log.go lines
298-304): it only receives from `chFile` (`f: <-chFile`).  When the first
epoch fails, the goroutine parks on
`select { case chErr <- err: case <-chClosed: }` with no receiver on
`chErr` and nobody able to close `chClosed` (no writer exists yet), so
`defer close(chFile)` never runs and the constructor blocks forever on
`<-chFile`: the call hangs. -/
def New2 (fe : FirstEpoch) : New2Result :=
  match fe with
  | .published f => New2Result.writer (initSys f)
  | .failed _ => New2Result.hangs

/-- States reachable through the public interface from a successful
construction. -/
inductive Reach : Sys → Prop
  | init (f : Nat) : Reach (initSys f)
  | step {s : Sys} (e : Event) (t : Sys)
      {r : Option ((Nat × Option GoErr) × List Nat)} :
      Reach s → stepE s e = Outcome.ok t r → Reach t

/-- Reachability by a sequence of events that contains no `Close` call. -/
inductive ReachNC : Sys → Sys → Prop
  | refl (s : Sys) : ReachNC s s
  | step {s t : Sys} (e : Event) (u : Sys)
      {r : Option ((Nat × Option GoErr) × List Nat)} :
      ReachNC s t → e ≠ Event.wClose → stepE t e = Outcome.ok u r → ReachNC s u

/-- Sticky-fault configuration: the writer has recorded error `e`, the
scheduler goroutine has returned, and `chFile` is closed. -/
def Sticky (e : GoErr) (s : Sys) : Prop :=
  s.rf.lastErr = some e ∧ s.sched = SchedState.done ∧ s.chFileClosed = true

/-- Protocol invariant of reachable states: a writer with no sticky error
holds a real file and `chFile` is still open; an epoch error in `lastErr`
means the goroutine has returned; a returned goroutine has closed
`chFile`; the scheduler only ever offers epoch errors. -/
def SysInv (s : Sys) : Prop :=
  (s.rf.lastErr = none → s.rf.f ≠ none ∧ s.chFileClosed = false)
  ∧ (∀ e, s.rf.lastErr = some e → isEpochErr e = true → s.sched = SchedState.done)
  ∧ (s.sched = SchedState.done → s.chFileClosed = true)
  ∧ (∀ e, s.sched = SchedState.offerErr e → isEpochErr e = true)

/-- Wall-clock instant as the scheduler reads it: a civil date in the
configured zone (the fields `now.Year()`, `now.Month()`, `now.Day()`),
the seconds elapsed since that local midnight, and the zone's offset from
universal time in seconds (modelling a fixed-offset `time.Location`). -/
structure CivilTime where
  year : Nat
  month : Nat
  day : Nat
  sod : Nat
  loc : Int
deriving DecidableEq, Repr

/-- Go's leap-year rule (time.isLeap): divisible by 4 and, on century
years, by 400. -/
def isLeap (y : Nat) : Bool :=
  y % 4 == 0 && (y % 100 != 0 || y % 400 == 0)

/-- Number of leap years in the range 1..y of the proleptic Gregorian
calendar, as counted by the 4/100/400-year cycles of Go's
time.absDate. -/
def nLeaps (y : Nat) : Nat :=
  y / 4 + y / 400 - y / 100

/-- Days in the months preceding month m (non-leap), Go's daysBefore
table. -/
def daysBeforeMonth : Nat → Nat
  | 1 => 0
  | 2 => 31
  | 3 => 59
  | 4 => 90
  | 5 => 120
  | 6 => 151
  | 7 => 181
  | 8 => 212
  | 9 => 243
  | 10 => 273
  | 11 => 304
  | 12 => 334
  | _ => 0

/-- Length of month m of year y (Go's daysIn). -/
def daysInMonth (y m : Nat) : Nat :=
  if m = 2 then (if isLeap y then 29 else 28)
  else if m = 4 ∨ m = 6 ∨ m = 9 ∨ m = 11 then 30 else 31

/-- Days from civil date 0001-01-01 to year y month m day d, the absolute
day count computed by Go's time.Date: full years with their leap days,
days before the month (plus the Feb 29 of a leap year once March is
reached), then day-of-month minus one.  As in Go the day is not required
to be in range for the month: day overflow simply advances into the next
month, which is exactly how `time.Date(y, m, d+1, 0, 0, 0, 0, loc)`
normalizes `now.Day()+1` at a month's end. -/
def daysFromCivil (y m d : Nat) : Nat :=
  365 * (y - 1) + nLeaps (y - 1) + daysBeforeMonth m
    + (if 2 < m ∧ isLeap y = true then 1 else 0) + (d - 1)

/-- Absolute second (universal time) of the instant t: its civil day in
the zone, plus the seconds into the local day, minus the zone offset. -/
def nowAbs (t : CivilTime) : Int :=
  (daysFromCivil t.year t.month t.day : Int) * 86400 + (t.sod : Int) - t.loc

/-- Absolute second of
`time.Date(now.Year(), now.Month(), now.Day()+1, 0, 0, 0, 0, now.Location())`
(src/log.go lines 121 and 293): local midnight of the day numbered one
higher, in the same zone. -/
def tomorrowAbs (t : CivilTime) : Int :=
  (daysFromCivil t.year t.month (t.day + 1) : Int) * 86400 - t.loc

/-- The scheduler's wait duration `tomorrow.Sub(now)`, in seconds. -/
def epochWait (t : CivilTime) : Int :=
  tomorrowAbs t - nowAbs t

/-- Seconds past local midnight of the absolute instant u in the zone with
offset loc. -/
def localSecOfDay (loc u : Int) : Int :=
  (u + loc) % 86400

/-- Validity of a civil timestamp: a real proleptic Gregorian date and a
second count within the day. -/
def validCivil (t : CivilTime) : Prop :=
  1 ≤ t.year ∧ 1 ≤ t.month ∧ t.month ≤ 12 ∧ 1 ≤ t.day
    ∧ t.day ≤ daysInMonth t.year t.month ∧ t.sod < 86400

instance (t : CivilTime) : Decidable (validCivil t) :=
  inferInstanceAs (Decidable (1 ≤ t.year ∧ 1 ≤ t.month ∧ t.month ≤ 12 ∧ 1 ≤ t.day
    ∧ t.day ≤ daysInMonth t.year t.month ∧ t.sod < 86400))

/-- Opening curly brace, the start of the token pattern of src/log.go line
43. -/
def lbrace : Char := Char.ofNat 123

/-- Closing curly brace, the end of the token pattern. -/
def rbrace : Char := Char.ofNat 125

/-- Newline; the regexp metacharacter dot of `RE2` does not match it. -/
def nlChar : Char := Char.ofNat 10

/-- Zero-pad a two-digit field, as Go's Format does for the layout chunks
01, 02, 04, 05, 15. -/
def pad2 (n : Nat) : List Char :=
  if n < 10 then '0' :: Nat.toDigits 10 n else Nat.toDigits 10 n

/-- Zero-pad the year to four digits, as Go's Format does for the layout
chunk 2006. -/
def pad4 (n : Nat) : List Char :=
  List.replicate (4 - (Nat.toDigits 10 n).length) '0' ++ Nat.toDigits 10 n

/-- Go time layout rendering (`now.Format`, src/log.go lines 90 and 261)
restricted to the numeric reference-layout chunks that date/time path
templates use: 2006 (year), 01/1 (month), 02/2 (day), 15 (hour), 04
(minute), 05 (second); every other character is copied literally, as Go
does.  Chunks are recognized longest-first at each position, mirroring
Go's nextStdChunk ordering. -/
def goFormat : List Char → CivilTime → List Char
  | [], _ => []
  | '2' :: '0' :: '0' :: '6' :: rest, t => pad4 t.year ++ goFormat rest t
  | '1' :: '5' :: rest, t => pad2 (t.sod / 3600) ++ goFormat rest t
  | '0' :: '1' :: rest, t => pad2 t.month ++ goFormat rest t
  | '0' :: '2' :: rest, t => pad2 t.day ++ goFormat rest t
  | '0' :: '4' :: rest, t => pad2 (t.sod % 3600 / 60) ++ goFormat rest t
  | '0' :: '5' :: rest, t => pad2 (t.sod % 60) ++ goFormat rest t
  | '1' :: rest, t => Nat.toDigits 10 t.month ++ goFormat rest t
  | '2' :: rest, t => Nat.toDigits 10 t.day ++ goFormat rest t
  | c :: rest, t => c :: goFormat rest t

/-- Index of the last occurrence of c in a character list. -/
def lastIdx (c : Char) : List Char → Option Nat
  | [] => none
  | a :: rest =>
    match lastIdx c rest with
    | some i => some (i + 1)
    | none => if a = c then some 0 else none

/-- Longest newline-free initial segment, the span the regexp
metacharacter dot can cover. -/
def lineSpan (cs : List Char) : List Char :=
  cs.takeWhile (fun c => c != nlChar)

/-- Fuelled scanner for `pattern.ReplaceAllStringFunc` with the pattern of
src/log.go line 43, an opening brace, a greedy dot-star and a closing
brace.  A match starts at the leftmost opening brace that has a closing
brace later on the same line, and extends to the last such closing brace
(greedy dot-star); the replacement function receives the text strictly
between the braces (`s[1:len(s)-1]`, line 90); scanning continues after
the match.  Fuel bounds the recursion; `replaceTokens` supplies enough. -/
def replaceTokensF (fmt : List Char → List Char) : Nat → List Char → List Char
  | 0, cs => cs
  | _ + 1, [] => []
  | fuel + 1, c :: rest =>
    if c = lbrace then
      match lastIdx rbrace (lineSpan rest) with
      | some j => fmt (rest.take j) ++ replaceTokensF fmt fuel (rest.drop (j + 1))
      | none => c :: replaceTokensF fmt fuel rest
    else c :: replaceTokensF fmt fuel rest

/-- Replacement of every match of the greedy brace pattern. -/
def replaceTokens (fmt : List Char → List Char) (cs : List Char) : List Char :=
  replaceTokensF fmt cs.length cs

/-- The pattern variant's path computation (src/log.go lines 89-91): every
match of the brace pattern in the template is replaced by the timestamp
rendered with the match's inner text as a Go layout. -/
def formatPath (tmpl : String) (t : CivilTime) : String :=
  (replaceTokens (fun inner => goFormat inner t) tmpl.toList).asString

/-- One scheduler epoch's decisions, both derived from the single clock
reading `now` taken at the top of the loop (src/log.go lines 88 and
120-123): the path to open and the duration to sleep until the next local
midnight. -/
def schedulerEpoch (tmpl : String) (t : CivilTime) : String × Int :=
  (formatPath tmpl t, epochWait t)

/-- The protocol invariant holds in every reachable state. -/
theorem reach_inv {s : Sys} (h : Reach s) : SysInv s := by
  induction h with
  | init f =>
    refine ⟨fun _ => ⟨by simp [initSys], rfl⟩, ?_, ?_, ?_⟩ <;> simp [initSys]
  | step e t hs hstep ih =>
    rename_i s r
    obtain ⟨ih1, ih2, ih3, ih4⟩ := ih
    cases e with
    | sOpen f =>
      simp only [stepE] at hstep
      split at hstep
      · rename_i hsched
        simp only [Outcome.ok.injEq] at hstep
        obtain ⟨h1, _⟩ := hstep
        subst h1
        refine ⟨fun hl => ih1 hl, ?_, by simp, by simp⟩
        intro e' hl hE
        exact absurd (hsched ▸ ih2 e' hl hE) (by simp)
      · simp at hstep
    | sFail er =>
      simp only [stepE] at hstep
      split at hstep
      · rename_i hsched
        split at hstep
        · rename_i hE
          simp only [Outcome.ok.injEq] at hstep
          obtain ⟨h1, _⟩ := hstep
          subst h1
          refine ⟨fun hl => ih1 hl, ?_, by simp, ?_⟩
          · intro e' hl hE'
            exact absurd (hsched ▸ ih2 e' hl hE') (by simp)
          · intro e' he'
            simp only [SchedState.offerErr.injEq] at he'
            exact he' ▸ hE
        · simp at hstep
      · simp at hstep
    | sTimeout =>
      simp only [stepE] at hstep
      split at hstep
      · rename_i hsched
        simp only [Outcome.ok.injEq] at hstep
        obtain ⟨h1, _⟩ := hstep
        subst h1
        refine ⟨fun hl => ih1 hl, ?_, by simp, by simp⟩
        intro e' hl hE
        exact absurd (hsched ▸ ih2 e' hl hE) (by simp)
      · simp at hstep
    | wWrite pev fw =>
      cases pev with
      | gotErr e' =>
        simp only [stepE] at hstep
        split at hstep
        · rename_i hv
          simp only [RollingFile.write, Outcome.ok.injEq] at hstep
          obtain ⟨h1, _⟩ := hstep
          subst h1
          exact ⟨fun hl => absurd hl (by simp), fun _ _ _ => rfl, fun _ => rfl,
            fun e'' he'' => absurd he'' (by simp)⟩
        · simp at hstep
      | gotFile fo =>
        cases fo with
        | some g =>
          simp only [stepE] at hstep
          split at hstep
          · rename_i hv
            have hsched : ∃ f', s.sched = SchedState.offerFile f' := by
              cases hs' : s.sched <;> simp [pollValid, hs'] at hv
              · exact ⟨_, rfl⟩
            obtain ⟨f', hsched⟩ := hsched
            simp only [RollingFile.write, Outcome.ok.injEq] at hstep
            obtain ⟨h1, _⟩ := hstep
            subst h1
            refine ⟨?_, ?_, by simp, by simp⟩
            · intro hl
              exact ⟨by simp, (ih1 hl).2⟩
            · intro e'' hl hE
              exact absurd (hsched ▸ ih2 e'' hl hE) (by simp)
          · simp at hstep
        | none =>
          simp only [stepE] at hstep
          split at hstep
          · rename_i hv
            have hchf : s.chFileClosed = true := by
              cases hs' : s.sched <;> simpa [pollValid, hs'] using hv
            simp only [RollingFile.write, Outcome.ok.injEq] at hstep
            obtain ⟨h1, _⟩ := hstep
            subst h1
            refine ⟨?_, fun e'' hl hE => ih2 e'' hl hE, fun hd => hchf ▸ ih3 hd, ih4⟩
            · intro hl
              exact absurd ((ih1 hl).2) (by simp [hchf])
          · simp at hstep
      | nothing =>
        simp only [stepE] at hstep
        split at hstep
        · rename_i hv
          simp only [RollingFile.write, Outcome.ok.injEq] at hstep
          obtain ⟨h1, _⟩ := hstep
          subst h1
          exact ⟨ih1, ih2, ih3, ih4⟩
        · simp at hstep
    | wClose =>
      simp only [stepE] at hstep
      split at hstep
      · simp at hstep
      · simp only [Outcome.ok.injEq] at hstep
        obtain ⟨h1, _⟩ := hstep
        subst h1
        exact ⟨fun hl => absurd hl (by simp), fun _ _ _ => rfl, fun _ => rfl,
          fun e'' he'' => absurd he'' (by simp)⟩

/-- Sticky-fault configurations are preserved by every close-free step:
the scheduler goroutine has returned, so no event can publish a file or an
error, and nothing ever writes `nil` back into `lastErr`. -/
theorem sticky_step {e : GoErr} {s t : Sys} (hs : Sticky e s) (ev : Event)
    (hne : ev ≠ Event.wClose) {r : Option ((Nat × Option GoErr) × List Nat)}
    (hstep : stepE s ev = Outcome.ok t r) : Sticky e t := by
  obtain ⟨hl, hsched, hchf⟩ := hs
  cases ev with
  | sOpen f => simp [stepE, hsched] at hstep
  | sFail er => simp [stepE, hsched] at hstep
  | sTimeout => simp [stepE, hsched] at hstep
  | wWrite pev fw =>
    cases pev with
    | gotErr e' => simp [stepE, pollValid, hsched] at hstep
    | gotFile fo =>
      cases fo with
      | some g => simp [stepE, pollValid, hsched] at hstep
      | none =>
        simp only [stepE, pollValid, hchf, if_true, RollingFile.write,
          Outcome.ok.injEq] at hstep
        obtain ⟨h1, _⟩ := hstep
        rw [← h1]
        exact ⟨hl, hsched, rfl⟩
    | nothing => simp [stepE, pollValid, hsched, hchf] at hstep
  | wClose => exact absurd rfl hne

/-- Sticky-fault configurations persist along every close-free event
sequence. -/
theorem sticky_reach {e : GoErr} {s t : Sys} (hs : Sticky e s)
    (h : ReachNC s t) : Sticky e t := by
  induction h with
  | refl => exact hs
  | step ev u hr hne hstep ih => exact sticky_step ih ev hne hstep

/-- In a sticky-fault configuration every observable `Write` call returns
zero bytes and the recorded error. -/
theorem sticky_write {e : GoErr} {t : Sys} (hs : Sticky e t) (ev : PollEvent)
    (fw : Nat → Nat × Option GoErr) (hv : pollValid t ev = true) :
    (RollingFile.write t.rf ev fw).1 = (0, some e) := by
  obtain ⟨hl, hsched, hchf⟩ := hs
  cases ev with
  | gotErr e' => simp [pollValid, hsched] at hv
  | gotFile fo =>
    cases fo with
    | some g => simp [pollValid, hsched] at hv
    | none => simp [RollingFile.write, hl]
  | nothing => simp [pollValid, hsched, hchf] at hv

/-- C1: once the scheduler has reported a directory-creation or file-open
failure and a `Write` call has observed it into `lastErr`, every later
`Write` call — after any further close-free activity — returns zero bytes
written and that same error; the fault is never cleared. -/
theorem sticky_scheduler_error {s t : Sys} {e : GoErr}
    (hs : Reach s) (he : s.rf.lastErr = some e) (hE : isEpochErr e = true)
    (ht : ReachNC s t) (ev : PollEvent) (fw : Nat → Nat × Option GoErr)
    (hv : pollValid t ev = true) :
    (RollingFile.write t.rf ev fw).1 = (0, some e) := by
  obtain ⟨_, inv2, inv3, _⟩ := reach_inv hs
  have hsched := inv2 e he hE
  exact sticky_write (sticky_reach ⟨he, hsched, inv3 hsched⟩ ht) ev fw hv

/-- C1 witness: after the scheduler fails the second epoch with open error
7 and a write observes it, the next write returns zero bytes and that
error. -/
theorem sticky_scheduler_error_witness :
    (⟨⟨some 0, some (GoErr.openErr 7)⟩, SchedState.done, false, true⟩ : Sys).rf.lastErr
        = some (GoErr.openErr 7)
    ∧ isEpochErr (GoErr.openErr 7) = true
    ∧ pollValid (⟨⟨some 0, some (GoErr.openErr 7)⟩, SchedState.done, false, true⟩ : Sys)
        (PollEvent.gotFile none) = true
    ∧ (RollingFile.write
        (⟨⟨some 0, some (GoErr.openErr 7)⟩, SchedState.done, false, true⟩ : Sys).rf
        (PollEvent.gotFile none) (fun _ => (1, none))).1 = (0, some (GoErr.openErr 7)) := by
  refine ⟨rfl, rfl, rfl, ?_⟩
  exact sticky_scheduler_error
    (Reach.step (Event.wWrite (PollEvent.gotErr (GoErr.openErr 7)) (fun _ => (1, none)))
      ⟨⟨some 0, some (GoErr.openErr 7)⟩, SchedState.done, false, true⟩
      (Reach.step (Event.sFail (GoErr.openErr 7))
        ⟨⟨some 0, none⟩, SchedState.offerErr (GoErr.openErr 7), false, false⟩
        (Reach.init 0) rfl)
      rfl)
    rfl rfl (ReachNC.refl _) (PollEvent.gotFile none) (fun _ => (1, none)) rfl

/-- C2 (code bug witness): `Close` is not state-guarded.  The first call
succeeds; the second call reaches `close(rf.chClosed)` with `chClosed`
already closed, and closing a closed channel panics in Go. -/
theorem close_twice_panics :
    stepE (initSys 0) Event.wClose
      = Outcome.ok ⟨⟨some 0, some GoErr.eof⟩, SchedState.done, true, true⟩ none
    ∧ stepE (⟨⟨some 0, some GoErr.eof⟩, SchedState.done, true, true⟩ : Sys) Event.wClose
      = Outcome.panicked :=
  ⟨rfl, rfl⟩

/-- C3 counterexample: in the fixed-layout variant the constructor has no
error return; when the first epoch fails, the goroutine parks on the
error send that nobody can receive, `chFile` is never closed, and the
constructor blocks forever on `<-chFile`. -/
theorem new_fixed_variant_hangs :
    New2 (FirstEpoch.failed (GoErr.openErr 0)) = New2Result.hangs := rfl

/-- C3 as amended: the pattern variant's constructor returns the writer
exactly when the first epoch published a file (and that writer is a
reachable state whose first write forwards to the published file), and
returns the scheduler's error when the first epoch failed; the
fixed-layout variant returns a writer on success but blocks forever on a
failed first epoch. -/
theorem new_first_epoch_behavior :
    (∀ f, New (FirstEpoch.published f) = Except.ok (initSys f))
    ∧ (∀ e, New (FirstEpoch.failed e) = Except.error e)
    ∧ (∀ f, Reach (initSys f))
    ∧ (∀ f fw, (RollingFile.write (initSys f).rf PollEvent.nothing fw).1 = fw f)
    ∧ (∀ f, New2 (FirstEpoch.published f) = New2Result.writer (initSys f)) :=
  ⟨fun _ => rfl, fun _ => rfl, fun f => Reach.init f, fun _ _ => rfl, fun _ => rfl⟩

/-- C4: each `Write` call performs exactly one non-blocking check.  If the
check observed an error it is recorded into `lastErr` and nothing else
changes; if it observed a file, the replacement is adopted and the
previously-held file is the one and only file closed; if nothing was
ready the struct is unchanged and the call proceeds; and the held file
changes only when the single check observed a replacement, so at most one
adoption happens per call. -/
theorem write_poll_check (s : Sys) (ev : PollEvent)
    (fw : Nat → Nat × Option GoErr) (hv : pollValid s ev = true) :
    (∀ e, ev = PollEvent.gotErr e →
      (RollingFile.write s.rf ev fw).2.1.lastErr = some e
      ∧ (RollingFile.write s.rf ev fw).2.1.f = s.rf.f
      ∧ (RollingFile.write s.rf ev fw).2.2 = [])
    ∧ (∀ fo, ev = PollEvent.gotFile fo →
      (RollingFile.write s.rf ev fw).2.1.f = fo
      ∧ (RollingFile.write s.rf ev fw).2.1.lastErr = s.rf.lastErr
      ∧ (RollingFile.write s.rf ev fw).2.2 = s.rf.f.toList)
    ∧ (ev = PollEvent.nothing →
      (RollingFile.write s.rf ev fw).2.1 = s.rf
      ∧ (RollingFile.write s.rf ev fw).2.2 = [])
    ∧ ((RollingFile.write s.rf ev fw).2.1.f ≠ s.rf.f →
      ∃ fo, ev = PollEvent.gotFile fo) := by
  cases ev <;> simp [RollingFile.write]

/-- C4 witness: with neither channel ready the check changes nothing. -/
theorem write_poll_check_witness :
    pollValid (initSys 0) PollEvent.nothing = true
    ∧ ((∀ e, PollEvent.nothing = PollEvent.gotErr e →
        (RollingFile.write (initSys 0).rf PollEvent.nothing (fun _ => (2, none))).2.1.lastErr = some e
        ∧ (RollingFile.write (initSys 0).rf PollEvent.nothing (fun _ => (2, none))).2.1.f = (initSys 0).rf.f
        ∧ (RollingFile.write (initSys 0).rf PollEvent.nothing (fun _ => (2, none))).2.2 = [])
      ∧ (∀ fo, PollEvent.nothing = PollEvent.gotFile fo →
        (RollingFile.write (initSys 0).rf PollEvent.nothing (fun _ => (2, none))).2.1.f = fo
        ∧ (RollingFile.write (initSys 0).rf PollEvent.nothing (fun _ => (2, none))).2.1.lastErr = (initSys 0).rf.lastErr
        ∧ (RollingFile.write (initSys 0).rf PollEvent.nothing (fun _ => (2, none))).2.2 = (initSys 0).rf.f.toList)
      ∧ (PollEvent.nothing = PollEvent.nothing →
        (RollingFile.write (initSys 0).rf PollEvent.nothing (fun _ => (2, none))).2.1 = (initSys 0).rf
        ∧ (RollingFile.write (initSys 0).rf PollEvent.nothing (fun _ => (2, none))).2.2 = [])
      ∧ ((RollingFile.write (initSys 0).rf PollEvent.nothing (fun _ => (2, none))).2.1.f ≠ (initSys 0).rf.f →
        ∃ fo, PollEvent.nothing = PollEvent.gotFile fo)) :=
  ⟨rfl, write_poll_check (initSys 0) PollEvent.nothing (fun _ => (2, none)) rfl⟩

/-- C5: with no sticky error recorded, `Write` forwards the bytes to the
currently-held file and returns that file's result verbatim; the struct
is unchanged, so the underlying write's error is not recorded and a
following call with a healthy file returns that call's own result; after
an adoption the bytes go to the newly-held file. -/
theorem write_forwards_verbatim (rf : RollingFile) (fid : Nat)
    (fw fw' : Nat → Nat × Option GoErr)
    (h0 : rf.lastErr = none) (hf : rf.f = some fid) :
    (RollingFile.write rf PollEvent.nothing fw).1 = fw fid
    ∧ (RollingFile.write rf PollEvent.nothing fw).2.1 = rf
    ∧ (RollingFile.write (RollingFile.write rf PollEvent.nothing fw).2.1
        PollEvent.nothing fw').1 = fw' fid
    ∧ (∀ g, (RollingFile.write rf (PollEvent.gotFile (some g)) fw).1 = fw g) := by
  simp [RollingFile.write, h0, hf]

/-- C5 witness: a failed underlying write (disk error 3) is returned
verbatim and is not sticky — the next call with a healthy file succeeds. -/
theorem write_forwards_verbatim_witness :
    (⟨some 5, none⟩ : RollingFile).lastErr = none
    ∧ (⟨some 5, none⟩ : RollingFile).f = some 5
    ∧ (RollingFile.write ⟨some 5, none⟩ PollEvent.nothing
        (fun _ => (0, some (GoErr.openErr 3)))).1 = (0, some (GoErr.openErr 3))
    ∧ (RollingFile.write (RollingFile.write ⟨some 5, none⟩ PollEvent.nothing
        (fun _ => (0, some (GoErr.openErr 3)))).2.1 PollEvent.nothing
        (fun _ => (9, none))).1 = (9, none) := by
  refine ⟨rfl, rfl, ?_, ?_⟩
  · exact (write_forwards_verbatim ⟨some 5, none⟩ 5
      (fun _ => (0, some (GoErr.openErr 3))) (fun _ => (9, none)) rfl rfl).1
  · exact (write_forwards_verbatim ⟨some 5, none⟩ 5
      (fun _ => (0, some (GoErr.openErr 3))) (fun _ => (9, none)) rfl rfl).2.2.1

/-- C6: once `Close` has returned, every later `Write` call — after any
further close-free activity — returns zero bytes and the stream-ended
error `io.EOF`. -/
theorem close_makes_writes_fail_eof (s u t : Sys)
    (r : Option ((Nat × Option GoErr) × List Nat))
    (hc : stepE s Event.wClose = Outcome.ok u r)
    (ht : ReachNC u t) (ev : PollEvent) (fw : Nat → Nat × Option GoErr)
    (hv : pollValid t ev = true) :
    (RollingFile.write t.rf ev fw).1 = (0, some GoErr.eof) := by
  have hu : Sticky GoErr.eof u := by
    simp only [stepE] at hc
    split at hc
    · simp at hc
    · simp only [Outcome.ok.injEq] at hc
      obtain ⟨h1, _⟩ := hc
      rw [← h1]
      exact ⟨rfl, rfl, rfl⟩
  exact sticky_write (sticky_reach hu ht) ev fw hv

/-- C6 witness: closing a freshly constructed writer makes the next write
return zero bytes and `io.EOF`. -/
theorem close_makes_writes_fail_eof_witness :
    stepE (initSys 0) Event.wClose
      = Outcome.ok ⟨⟨some 0, some GoErr.eof⟩, SchedState.done, true, true⟩ none
    ∧ pollValid (⟨⟨some 0, some GoErr.eof⟩, SchedState.done, true, true⟩ : Sys)
        (PollEvent.gotFile none) = true
    ∧ (RollingFile.write
        (⟨⟨some 0, some GoErr.eof⟩, SchedState.done, true, true⟩ : Sys).rf
        (PollEvent.gotFile none) (fun _ => (1, none))).1 = (0, some GoErr.eof) := by
  refine ⟨rfl, rfl, ?_⟩
  exact close_makes_writes_fail_eof (initSys 0)
    ⟨⟨some 0, some GoErr.eof⟩, SchedState.done, true, true⟩
    ⟨⟨some 0, some GoErr.eof⟩, SchedState.done, true, true⟩
    none rfl (ReachNC.refl _) (PollEvent.gotFile none) (fun _ => (1, none)) rfl

/-- C10: in every reachable state, if no sticky error is recorded the held
file handle is non-nil; and whenever a `Write` call finishes its check
with no sticky error recorded, it holds a real file and the bytes were
forwarded through exactly that handle — the nil-receiver branch is never
taken. -/
theorem write_handle_invariant {s : Sys} (hs : Reach s) (ev : PollEvent)
    (fw : Nat → Nat × Option GoErr) (hv : pollValid s ev = true) :
    (s.rf.lastErr = none → s.rf.f ≠ none)
    ∧ ((RollingFile.write s.rf ev fw).2.1.lastErr = none →
      ∃ fid, (RollingFile.write s.rf ev fw).2.1.f = some fid
        ∧ (RollingFile.write s.rf ev fw).1 = fw fid) := by
  obtain ⟨inv1, _, _, _⟩ := reach_inv hs
  refine ⟨fun hl => (inv1 hl).1, ?_⟩
  cases ev with
  | gotErr e' => intro h; simp [RollingFile.write] at h
  | gotFile fo =>
    cases fo with
    | some g =>
      intro h
      simp only [RollingFile.write] at h ⊢
      exact ⟨g, rfl, by simp [h]⟩
    | none =>
      intro h
      simp only [RollingFile.write] at h
      rw [pollValid] at hv
      rw [(inv1 h).2] at hv
      simp at hv
  | nothing =>
    intro h
    simp only [RollingFile.write] at h ⊢
    obtain ⟨fid, hfid⟩ := Option.ne_none_iff_exists'.mp ((inv1 h).1)
    exact ⟨fid, hfid, by simp [h, hfid]⟩

/-- C10 witness: the freshly constructed writer holds file 0 and forwards
through it. -/
theorem write_handle_invariant_witness :
    pollValid (initSys 0) PollEvent.nothing = true
    ∧ (((initSys 0).rf.lastErr = none → (initSys 0).rf.f ≠ none)
      ∧ ((RollingFile.write (initSys 0).rf PollEvent.nothing (fun _ => (4, none))).2.1.lastErr = none →
        ∃ fid, (RollingFile.write (initSys 0).rf PollEvent.nothing (fun _ => (4, none))).2.1.f = some fid
          ∧ (RollingFile.write (initSys 0).rf PollEvent.nothing (fun _ => (4, none))).1 = (fun _ => ((4 : Nat), (none : Option GoErr))) fid)) :=
  ⟨rfl, write_handle_invariant (Reach.init 0) PollEvent.nothing (fun _ => (4, none)) rfl⟩


/-- Fuel is irrelevant to the token scanner once it covers the input
length. -/
theorem replaceTokensF_fuel (fmt : List Char → List Char) :
    ∀ (fuel fuel' : Nat) (cs : List Char), cs.length ≤ fuel → cs.length ≤ fuel' →
      replaceTokensF fmt fuel cs = replaceTokensF fmt fuel' cs := by
  intro fuel
  induction fuel with
  | zero =>
    intro fuel' cs h h'
    have hcs : cs = [] := List.length_eq_zero.mp (Nat.le_zero.mp h)
    subst hcs
    cases fuel' <;> rfl
  | succ n ih =>
    intro fuel' cs h h'
    cases cs with
    | nil => cases fuel' <;> rfl
    | cons c rest =>
      cases fuel' with
      | zero => simp at h'
      | succ n' =>
        simp only [List.length_cons, Nat.succ_le_succ_iff] at h h'
        simp only [replaceTokensF]
        split
        · split
          · rename_i j hj
            congr 1
            refine ih n' (rest.drop (j + 1)) ?_ ?_ <;> simp only [List.length_drop] <;> omega
          · congr 1
            exact ih n' rest h h'
        · congr 1
          exact ih n' rest h h'

/-- A character absent from a list has no last occurrence. -/
theorem lastIdx_of_not_mem {c : Char} {l : List Char} (h : c ∉ l) :
    lastIdx c l = none := by
  induction l with
  | nil => rfl
  | cons a rest ih =>
    simp only [List.mem_cons, not_or] at h
    simp only [lastIdx, ih h.2]
    exact if_neg (fun hac => h.1 hac.symm)

/-- When c does not occur after a given occurrence, that occurrence is the
last one. -/
theorem lastIdx_last {c : Char} (xs : List Char) {ys : List Char} (h : c ∉ ys) :
    lastIdx c (xs ++ c :: ys) = some xs.length := by
  induction xs with
  | nil => simp [lastIdx, lastIdx_of_not_mem h]
  | cons a xs ih => simp [lastIdx, ih]

/-- The newline-free initial segment distributes over an append whose left
part is newline-free. -/
theorem lineSpan_append (xs ys : List Char) (h : nlChar ∉ xs) :
    lineSpan (xs ++ ys) = xs ++ lineSpan ys := by
  induction xs with
  | nil => rfl
  | cons a xs ih =>
    simp only [List.mem_cons, not_or] at h
    simp only [List.cons_append, lineSpan, List.takeWhile_cons]
    rw [if_pos (by simp only [bne_iff_ne, ne_eq]; exact fun hh => h.1 hh.symm)]
    have := ih h.2
    simp only [lineSpan] at this
    rw [this]

/-- Single-match shape of the greedy scanner: on a brace-free head, an
opening brace, a newline-free span and a closing brace that is the last
one on its line, the match covers exactly that span, the replacement
function receives it, the head is copied verbatim and scanning continues
after the match. -/
theorem replaceTokens_single (fmt : List Char → List Char)
    (a inner b : List Char) (ha : lbrace ∉ a) (hi : nlChar ∉ inner)
    (hb : rbrace ∉ lineSpan b) :
    replaceTokens fmt (a ++ lbrace :: (inner ++ rbrace :: b))
      = a ++ (fmt inner ++ replaceTokens fmt b) := by
  induction a with
  | nil =>
    simp only [List.nil_append]
    show replaceTokensF fmt (lbrace :: (inner ++ rbrace :: b)).length
      (lbrace :: (inner ++ rbrace :: b)) = _
    simp only [List.length_cons, replaceTokensF, if_true]
    have hspan : lineSpan (inner ++ rbrace :: b) = inner ++ rbrace :: lineSpan b := by
      rw [lineSpan_append _ _ hi]
      simp [lineSpan, List.takeWhile_cons]
      decide
    rw [hspan, lastIdx_last inner hb]
    show fmt ((inner ++ rbrace :: b).take inner.length)
        ++ replaceTokensF fmt (inner ++ rbrace :: b).length
            ((inner ++ rbrace :: b).drop (inner.length + 1)) = _
    have htake : (inner ++ rbrace :: b).take inner.length = inner := List.take_left _ _
    have hdrop : (inner ++ rbrace :: b).drop (inner.length + 1) = b := by
      have h2 : inner ++ rbrace :: b = (inner ++ [rbrace]) ++ b := by simp
      have hlen : inner.length + 1 = (inner ++ [rbrace]).length := by simp
      rw [h2, hlen]
      exact List.drop_left _ _
    rw [htake, hdrop]
    congr 1
    exact replaceTokensF_fuel fmt _ _ b (by simp; omega) (le_refl _)
  | cons a0 a ih =>
    simp only [List.mem_cons, not_or] at ha
    simp only [List.cons_append]
    show replaceTokensF fmt (a0 :: (a ++ lbrace :: (inner ++ rbrace :: b))).length
      (a0 :: (a ++ lbrace :: (inner ++ rbrace :: b))) = _
    simp only [List.length_cons, replaceTokensF]
    rw [if_neg (fun hh => ha.1 hh.symm)]
    have := ih ha.2
    simp only [replaceTokens] at this
    rw [this]
    rfl

/-- C7 counterexample: the pattern of src/log.go line 43 is greedy, so a
template with two separate bracketed tokens on one line produces a single
match from the first opening brace to the last closing brace; the text
between the tokens is handed to the date formatter instead of being
preserved verbatim.  At 2021-03-05 the claim's expected per-token result
is not produced. -/
theorem greedy_two_tokens_cex :
    formatPath "a/\x7b2006\x7d-\x7b01\x7d/b" ⟨2021, 3, 5, 0, 0⟩ = "a/2021\x7d-\x7b03/b"
    ∧ formatPath "a/\x7b2006\x7d-\x7b01\x7d/b" ⟨2021, 3, 5, 0, 0⟩ ≠ "a/2021-03/b" := by
  constructor <;> decide

/-- C7 as amended: the formatter replaces each match of the greedy pattern
independently and leaves non-matched text verbatim, but a match runs from
an opening brace to the last closing brace on its line; in particular a
template with two separate bracketed tokens on one line yields one
combined match whose inner text — including the literal text between the
tokens — is rendered as a single date-format specifier. -/
theorem greedy_token_replacement (a x m y b : List Char) (t : CivilTime)
    (ha : lbrace ∉ a) (hx : nlChar ∉ x) (hm : nlChar ∉ m) (hy : nlChar ∉ y)
    (hb : rbrace ∉ lineSpan b) :
    replaceTokens (fun inner => goFormat inner t)
        (a ++ lbrace :: (x ++ rbrace :: (m ++ lbrace :: (y ++ rbrace :: b))))
      = a ++ (goFormat (x ++ rbrace :: (m ++ lbrace :: y)) t
          ++ replaceTokens (fun inner => goFormat inner t) b) := by
  have h1 : x ++ rbrace :: (m ++ lbrace :: (y ++ rbrace :: b))
      = (x ++ rbrace :: (m ++ lbrace :: y)) ++ rbrace :: b := by
    simp [List.append_assoc]
  rw [h1]
  refine replaceTokens_single _ a _ b ha ?_ hb
  simp only [List.mem_append, List.mem_cons, not_or]
  exact ⟨hx, by decide, hm, by decide, hy⟩

/-- C7 witness: the amended statement evaluated on the two-token template
a/\x7b2006\x7d-\x7b01\x7d/b. -/
theorem greedy_token_replacement_witness :
    lbrace ∉ "a/".toList
    ∧ nlChar ∉ "2006".toList ∧ nlChar ∉ "-".toList ∧ nlChar ∉ "01".toList
    ∧ rbrace ∉ lineSpan "/b".toList
    ∧ replaceTokens (fun inner => goFormat inner ⟨2021, 3, 5, 0, 0⟩)
        ("a/".toList ++ lbrace :: ("2006".toList ++ rbrace ::
          ("-".toList ++ lbrace :: ("01".toList ++ rbrace :: "/b".toList))))
      = "a/".toList ++ (goFormat ("2006".toList ++ rbrace ::
          ("-".toList ++ lbrace :: "01".toList)) ⟨2021, 3, 5, 0, 0⟩
          ++ replaceTokens (fun inner => goFormat inner ⟨2021, 3, 5, 0, 0⟩) "/b".toList) :=
  ⟨by decide, by decide, by decide, by decide, by decide,
    greedy_token_replacement "a/".toList "2006".toList "-".toList "01".toList "/b".toList
      ⟨2021, 3, 5, 0, 0⟩ (by decide) (by decide) (by decide) (by decide) (by decide)⟩

/-- C8: the Path Formatter's output is a function of the template and the
timestamp alone (in the embedding it is literally a pure function of that
pair, as the Go closure of src/log.go lines 89-91 reads nothing but
`config.FilepathPattern` and `now`); concretely, the spec's example
template at 2021-03-05T10:00:00 yields the spec's example path, and the
same date at another second of the day yields the very same path. -/
theorem format_path_deterministic_example :
    formatPath "logs/\x7b2006/01/2006-01-02\x7d/log.log" ⟨2021, 3, 5, 36000, 0⟩
      = "logs/2021/03/2021-03-05/log.log"
    ∧ formatPath "logs/\x7b2006/01/2006-01-02\x7d/log.log" ⟨2021, 3, 5, 86399, 120⟩
      = "logs/2021/03/2021-03-05/log.log" := by
  constructor <;> decide

/-- Arithmetical characterization of Go's leap-year rule. -/
theorem isLeap_iff (y : Nat) :
    isLeap y = true ↔ (y % 4 = 0 ∧ (y % 100 ≠ 0 ∨ y % 400 = 0)) := by
  simp [isLeap, Bool.and_eq_true, Bool.or_eq_true, beq_iff_eq, bne_iff_ne]

/-- One more year adds one leap day exactly when that year is leap. -/
theorem nLeaps_succ (y : Nat) (h : 1 ≤ y) :
    nLeaps y = nLeaps (y - 1) + (if isLeap y = true then 1 else 0) := by
  simp only [nLeaps]
  split
  · rename_i hl
    rw [isLeap_iff] at hl
    omega
  · rename_i hl
    rw [isLeap_iff] at hl
    push_neg at hl
    omega

/-- Day-overflow normalization of the absolute day count: the day after
the last day of a month is day 1 of the next month, rolling December 31
over into January 1 of the next year. -/
theorem daysFromCivil_rollover (y m : Nat) (hy : 1 ≤ y) (hm1 : 1 ≤ m) (hm12 : m ≤ 12) :
    daysFromCivil y m (daysInMonth y m + 1)
      = (if m = 12 then daysFromCivil (y + 1) 1 1 else daysFromCivil y (m + 1) 1) := by
  have hns := nLeaps_succ y hy
  by_cases hL : isLeap y = true
  · rw [if_pos hL] at hns
    interval_cases m <;> norm_num [daysInMonth, daysFromCivil, daysBeforeMonth, hL] <;> omega
  · rw [if_neg hL] at hns
    interval_cases m <;> norm_num [daysInMonth, daysFromCivil, daysBeforeMonth, hL] <;> omega

/-- C9: the scheduler's wait `tomorrow.Sub(now)` equals the interval from
`now` to the next local midnight in `now`'s zone: it is the rest of the
local day, positive and at most a day long; the instant it ends is a
local midnight and no earlier instant after `now` is one; `Day()+1` is
correctly normalized across month and year ends; and both the path and
the wait of an epoch are computed from the one timestamp `now` (the pair
`schedulerEpoch` is a function of it), never from a later reading. -/
theorem epoch_wait_next_midnight (t : CivilTime) (h : validCivil t) :
    epochWait t = 86400 - (t.sod : Int)
    ∧ 0 < epochWait t ∧ epochWait t ≤ 86400
    ∧ localSecOfDay t.loc (nowAbs t + epochWait t) = 0
    ∧ (∀ u : Int, nowAbs t < u → u < nowAbs t + epochWait t → localSecOfDay t.loc u ≠ 0)
    ∧ (t.day = daysInMonth t.year t.month →
        daysFromCivil t.year t.month (t.day + 1)
          = (if t.month = 12 then daysFromCivil (t.year + 1) 1 1
             else daysFromCivil t.year (t.month + 1) 1))
    ∧ (∀ tmpl, schedulerEpoch tmpl t = (formatPath tmpl t, epochWait t)) := by
  obtain ⟨y, m, d, so, lo⟩ := t
  obtain ⟨hy, hm1, hm12, hd1, hdle, hsod⟩ := h
  simp only at hy hm1 hm12 hd1 hdle hsod
  have hlin : daysFromCivil y m (d + 1) = daysFromCivil y m d + 1 := by
    simp only [daysFromCivil]
    omega
  have ha : epochWait ⟨y, m, d, so, lo⟩ = 86400 - (so : Int) := by
    simp only [epochWait, tomorrowAbs, nowAbs, hlin]
    push_cast
    ring
  refine ⟨ha, by rw [ha]; omega, by rw [ha]; omega, ?_, ?_, ?_, fun _ => rfl⟩
  · have h2 : nowAbs ⟨y, m, d, so, lo⟩ + epochWait ⟨y, m, d, so, lo⟩
        = tomorrowAbs ⟨y, m, d, so, lo⟩ := by
      simp only [epochWait]
      ring
    rw [h2]
    simp only [localSecOfDay, tomorrowAbs, Int.sub_add_cancel]
    exact Int.mul_emod_left _ _
  · intro u h1 h2 h0
    rw [ha] at h2
    simp only [nowAbs, localSecOfDay] at h1 h2 h0
    omega
  · intro hday
    simp only at hday ⊢
    rw [hday]
    exact daysFromCivil_rollover y m hy hm1 hm12

/-- C9 witness: New Year's Eve 2020, 10:00 local time in a zone one hour
east of universal time. -/
theorem epoch_wait_next_midnight_witness :
    validCivil ⟨2020, 12, 31, 36000, 3600⟩
    ∧ (epochWait ⟨2020, 12, 31, 36000, 3600⟩ = 86400 - ((36000 : Nat) : Int)
      ∧ 0 < epochWait ⟨2020, 12, 31, 36000, 3600⟩
        ∧ epochWait ⟨2020, 12, 31, 36000, 3600⟩ ≤ 86400
      ∧ localSecOfDay (3600 : Int)
          (nowAbs ⟨2020, 12, 31, 36000, 3600⟩ + epochWait ⟨2020, 12, 31, 36000, 3600⟩) = 0
      ∧ (∀ u : Int, nowAbs ⟨2020, 12, 31, 36000, 3600⟩ < u →
          u < nowAbs ⟨2020, 12, 31, 36000, 3600⟩ + epochWait ⟨2020, 12, 31, 36000, 3600⟩ →
          localSecOfDay (3600 : Int) u ≠ 0)
      ∧ ((31 : Nat) = daysInMonth 2020 12 →
          daysFromCivil 2020 12 (31 + 1)
            = (if (12 : Nat) = 12 then daysFromCivil (2020 + 1) 1 1
               else daysFromCivil 2020 (12 + 1) 1))
      ∧ (∀ tmpl, schedulerEpoch tmpl ⟨2020, 12, 31, 36000, 3600⟩
          = (formatPath tmpl ⟨2020, 12, 31, 36000, 3600⟩,
             epochWait ⟨2020, 12, 31, 36000, 3600⟩))) :=
  ⟨by decide, epoch_wait_next_midnight ⟨2020, 12, 31, 36000, 3600⟩ (by decide)⟩
